import Mathlib

/-
Verification development for the KILT credential verifier.

The Rust sources are embedded shallowly:
  - bytes are `Nat` values < 256, machine words are `Nat` values reduced mod 2^64;
  - fallible Rust functions returning `Result<T, Error>` become `Except Error T`;
  - the Blake2b-256 digest (the `blake2` crate, used by `credential.rs` as its
    only hash) is implemented concretely below, following RFC 7693;
  - external library primitives that live outside this repository (SS58
    address codec from `sp_core`, sr25519 signature verification, and the two
    chain storage queries issued through `subxt`) are modelled as fields of an
    `Externals` record, since the repository only consumes their interfaces.
-/

set_option maxRecDepth 1000000

-- ---------------------------------------------------------------------------
-- Generic helpers
-- ---------------------------------------------------------------------------

-- First-match lookup in an association list; models `HashMap::get` (keys of a
-- `HashMap` are unique, so first-match agrees with map lookup).
def lookupStr : List (String × String) → String → Option String
  | [], _ => none
  | kv :: rest, key => if kv.1 = key then some kv.2 else lookupStr rest key

-- Models Rust `str::split(sep)`: always yields at least one (possibly empty)
-- segment, and a trailing separator yields a trailing empty segment.
def splitChar (sep : Char) : List Char → List (List Char)
  | [] => [[]]
  | c :: rest =>
    let r := splitChar sep rest
    if c = sep then [] :: r
    else
      match r with
      | [] => [[c]]
      | g :: gs => (c :: g) :: gs

-- The Unicode White_Space code points, as used by Rust `char::is_whitespace`
-- (and hence by `str::trim`).
def rustWhitespace (c : Char) : Bool :=
  decide (c.toNat ∈ [9, 10, 11, 12, 13, 32, 133, 160, 5760, 8192, 8193, 8194,
    8195, 8196, 8197, 8198, 8199, 8200, 8201, 8202, 8232, 8233, 8239, 8287, 12288])

-- Models Rust `str::trim`.
def trimChars (cs : List Char) : List Char :=
  ((cs.dropWhile rustWhitespace).reverse.dropWhile rustWhitespace).reverse

-- Models Rust `str::trim_start_matches("0x")`: removes every repetition of
-- the exact (case-sensitive) two-character pattern `0x` from the front.
def strip0x : List Char → List Char
  | '0' :: 'x' :: rest => strip0x rest
  | cs => cs

-- UTF-8 encoding of one character (Rust strings are UTF-8; `Digest::update`
-- on a `&str` consumes its UTF-8 bytes).
def utf8Char (c : Char) : List Nat :=
  let n := c.toNat
  if n < 128 then [n]
  else if n < 2048 then [192 + n / 64, 128 + n % 64]
  else if n < 65536 then [224 + n / 4096, 128 + (n / 64) % 64, 128 + n % 64]
  else [240 + n / 262144, 128 + (n / 4096) % 64, 128 + (n / 64) % 64, 128 + n % 64]

def utf8Bytes (s : String) : List Nat := (s.data.map utf8Char).flatten

-- ---------------------------------------------------------------------------
-- Error type
-- ---------------------------------------------------------------------------

-- Models `hex::FromHexError`.  `invalidChar` carries the offending byte value
-- and its index in the decoded slice, as the `hex` crate does.
inductive HexError where
  | oddLength
  | invalidChar (c : Nat) (idx : Nat)
  | invalidStringLength
deriving DecidableEq, Repr

-- The error kinds of the program.  The first nine variants transcribe the
-- `Error` enum declared in `src/errors.rs` (payloads of `Io`, `Serde` and
-- `ConnectionError` are dropped: the repository never inspects them).  The
-- last three variants are constructed by `Credential::check_attestation` in
-- `src/credential.rs` even though `src/errors.rs` does not declare them; they
-- are needed to embed that function (see the C9 theorem below).
inductive Error where
  | io
  | serde
  | invalidClaimContents
  | invalidHex (e : HexError)
  | invalidRootHash
  | connectionError
  | invalidDid
  | didNotFound
  | invalidSignature
  | attestationNotFound
  | attestationRevoked
  | invalidIssuer
deriving DecidableEq, Repr

-- Decidable equality on `Except`, so that concrete runs of the embedded
-- functions can be checked by evaluation.
instance {ε α : Type} [DecidableEq ε] [DecidableEq α] : DecidableEq (Except ε α) := fun a b =>
  match a, b with
  | .ok x, .ok y =>
    if h : x = y then .isTrue (by rw [h]) else .isFalse (by intro hc; injection hc; contradiction)
  | .ok _, .error _ => .isFalse (by intro hc; cases hc)
  | .error _, .ok _ => .isFalse (by intro hc; cases hc)
  | .error e1, .error e2 =>
    if h : e1 = e2 then .isTrue (by rw [h]) else .isFalse (by intro hc; injection hc; contradiction)

-- The variant names exactly as declared by the `Error` enum in
-- `src/errors.rs` (lines 1-12), in declaration order.
def errorsRsVariantNames : List String :=
  ["Io", "Serde", "InvalidClaimContents", "InvalidHex", "InvalidRootHash",
   "ConnectionError", "InvalidDid", "DidNotFound", "InvalidSignature"]

-- The Rust variant name each embedded error kind corresponds to.
def errName : Error → String
  | .io => "Io"
  | .serde => "Serde"
  | .invalidClaimContents => "InvalidClaimContents"
  | .invalidHex _ => "InvalidHex"
  | .invalidRootHash => "InvalidRootHash"
  | .connectionError => "ConnectionError"
  | .invalidDid => "InvalidDid"
  | .didNotFound => "DidNotFound"
  | .invalidSignature => "InvalidSignature"
  | .attestationNotFound => "AttestationNotFound"
  | .attestationRevoked => "AttestationRevoked"
  | .invalidIssuer => "InvalidIssuer"

-- ---------------------------------------------------------------------------
-- Hex encoding and decoding (src/utils.rs)
-- ---------------------------------------------------------------------------

def hexDigitChars : List Char := "0123456789abcdef".data

def hexDigit (n : Nat) : Char := hexDigitChars.getD n '0'

def byteHexChars (b : Nat) : List Char := [hexDigit (b / 16), hexDigit (b % 16)]

def hexCore (bs : List Nat) : String := String.mk ((bs.map byteHexChars).flatten)

-- Models `utils::hex_encode`: lowercase hex with a `0x` front marker.
def hex_encode (bs : List Nat) : String := "0x" ++ hexCore bs

-- Value of one hex digit byte, as the `hex` crate accepts them
-- (`0`-`9`, `a`-`f`, `A`-`F`).
def hexVal (b : Nat) : Option Nat :=
  if 48 ≤ b ∧ b ≤ 57 then some (b - 48)
  else if 97 ≤ b ∧ b ≤ 102 then some (b - 87)
  else if 65 ≤ b ∧ b ≤ 70 then some (b - 55)
  else none

-- Pairwise decoding loop of `hex::decode`; `i` is the byte index used in
-- `InvalidHexCharacter` errors.  Rust combines a pair as `v1 << 4 | v2`,
-- which equals `v1 * 16 + v2` since both values are below 16.
def hexPairs : List Nat → Nat → Except HexError (List Nat)
  | [], _ => .ok []
  | [b], i => .error (.invalidChar b i)
  | b1 :: b2 :: rest, i =>
    match hexVal b1 with
    | none => .error (.invalidChar b1 i)
    | some v1 =>
      match hexVal b2 with
      | none => .error (.invalidChar b2 (i + 1))
      | some v2 =>
        match hexPairs rest (i + 2) with
        | .error e => .error e
        | .ok t => .ok ((v1 * 16 + v2) :: t)

-- Models `hex::decode` on a byte slice: odd length is rejected first.
def hexDecodeBytes (bytes : List Nat) : Except HexError (List Nat) :=
  if bytes.length % 2 = 1 then .error .oddLength else hexPairs bytes 0

-- Models `utils::hex_decode`: trim surrounding whitespace, strip the
-- (lowercase) `0x` front marker, then `hex::decode`; a `FromHexError` is
-- converted into `Error::InvalidHex` by the `From` impl.
def hex_decode (s : String) : Except Error (List Nat) :=
  match hexDecodeBytes (utf8Bytes (String.mk (strip0x (trimChars s.data)))) with
  | .error e => .error (.invalidHex e)
  | .ok bs => .ok bs

-- ---------------------------------------------------------------------------
-- Blake2b-256 (type alias `Blake2b256 = Blake2b<U32>` in src/credential.rs)
-- ---------------------------------------------------------------------------

def w64mod : Nat := 18446744073709551616

def wadd (a b : Nat) : Nat := (a + b) % w64mod

def rotr64 (x n : Nat) : Nat := ((x <<< (64 - n)) % w64mod) ||| (x >>> n)

def blakeIV : List Nat :=
  [0x6a09e667f3bcc908, 0xbb67ae8584caa73b, 0x3c6ef372fe94f82b, 0xa54ff53a5f1d36f1,
   0x510e527fade682d1, 0x9b05688c2b3e6c1f, 0x1f83d9abfb41bd6b, 0x5be0cd19137e2179]

def blakeSigma : List (List Nat) :=
  [[0, 1, 2, 3, 4, 5, 6, 7, 8, 9, 10, 11, 12, 13, 14, 15],
   [14, 10, 4, 8, 9, 15, 13, 6, 1, 12, 0, 2, 11, 7, 5, 3],
   [11, 8, 12, 0, 5, 2, 15, 13, 10, 14, 3, 6, 7, 1, 9, 4],
   [7, 9, 3, 1, 13, 12, 11, 14, 2, 6, 5, 10, 4, 0, 15, 8],
   [9, 0, 5, 7, 2, 4, 10, 15, 14, 1, 11, 12, 6, 8, 3, 13],
   [2, 12, 6, 10, 0, 11, 8, 3, 4, 13, 7, 5, 15, 14, 1, 9],
   [12, 5, 1, 15, 14, 13, 4, 10, 0, 7, 6, 3, 9, 2, 8, 11],
   [13, 11, 7, 14, 12, 1, 3, 9, 5, 0, 15, 4, 8, 6, 2, 10],
   [6, 15, 14, 9, 11, 3, 0, 8, 12, 2, 13, 7, 1, 4, 10, 5],
   [10, 2, 8, 4, 7, 6, 1, 5, 15, 11, 9, 14, 3, 12, 13, 0]]

def lget (l : List Nat) (i : Nat) : Nat := l.getD i 0

def blakeG (v : List Nat) (a b c d x y : Nat) : List Nat :=
  let va := wadd (wadd (lget v a) (lget v b)) x
  let vd := rotr64 ((lget v d) ^^^ va) 32
  let vc := wadd (lget v c) vd
  let vb := rotr64 ((lget v b) ^^^ vc) 24
  let va2 := wadd (wadd va vb) y
  let vd2 := rotr64 (vd ^^^ va2) 16
  let vc2 := wadd vc vd2
  let vb2 := rotr64 (vb ^^^ vc2) 63
  ((((v.set a va2).set b vb2).set c vc2).set d vd2)

def blakeRound (m : List Nat) (v : List Nat) (s : List Nat) : List Nat :=
  let v1 := blakeG v 0 4 8 12 (lget m (lget s 0)) (lget m (lget s 1))
  let v2 := blakeG v1 1 5 9 13 (lget m (lget s 2)) (lget m (lget s 3))
  let v3 := blakeG v2 2 6 10 14 (lget m (lget s 4)) (lget m (lget s 5))
  let v4 := blakeG v3 3 7 11 15 (lget m (lget s 6)) (lget m (lget s 7))
  let v5 := blakeG v4 0 5 10 15 (lget m (lget s 8)) (lget m (lget s 9))
  let v6 := blakeG v5 1 6 11 12 (lget m (lget s 10)) (lget m (lget s 11))
  let v7 := blakeG v6 2 7 8 13 (lget m (lget s 12)) (lget m (lget s 13))
  let v8 := blakeG v7 3 4 9 14 (lget m (lget s 14)) (lget m (lget s 15))
  v8

def leWord (b : List Nat) : Nat := b.foldr (fun x acc => x + 256 * acc) 0

def toWordsGo : Nat → List Nat → List Nat
  | 0, _ => []
  | n + 1, l => leWord (l.take 8) :: toWordsGo n (l.drop 8)

def toWords (l : List Nat) : List Nat := toWordsGo 16 l

def blakeCompress (h : List Nat) (m : List Nat) (t : Nat) (last : Bool) : List Nat :=
  let v0 := h ++ blakeIV
  let v1 := v0.set 12 ((lget v0 12) ^^^ (t % w64mod))
  let v2 := v1.set 13 ((lget v1 13) ^^^ (t / w64mod))
  let v3 := if last then v2.set 14 ((lget v2 14) ^^^ 0xffffffffffffffff) else v2
  let vf := (List.range 12).foldl (fun v i => blakeRound m v (blakeSigma.getD (i % 10) [])) v3
  (List.range 8).map (fun i => (lget h i) ^^^ (lget vf i) ^^^ (lget vf (i + 8)))

def padBlock (l : List Nat) : List Nat := l ++ List.replicate (128 - l.length) 0

def blakeGo : Nat → List Nat → Nat → List Nat → List Nat
  | 0, h, _, _ => h
  | fuel + 1, h, t, l =>
    if l.length ≤ 128 then blakeCompress h (toWords (padBlock l)) (t + l.length) true
    else blakeGo fuel (blakeCompress h (toWords (l.take 128)) (t + 128) false) (t + 128) (l.drop 128)

-- Initial state for an unkeyed digest of 32 bytes: IV with the parameter
-- word 0x0101_0000 xor 32 folded into h0.
def blakeH0 : List Nat := blakeIV.set 0 ((lget blakeIV 0) ^^^ 0x01010020)

def wordBytesLE (w : Nat) : List Nat :=
  [w % 256, w / 256 % 256, w / 65536 % 256, w / 16777216 % 256,
   w / 4294967296 % 256, w / 1099511627776 % 256,
   w / 281474976710656 % 256, w / 72057594037927936 % 256]

-- Blake2b with a 32-byte digest over a byte sequence.  The streaming
-- `update` calls of the Rust code are equivalent to one digest over the
-- concatenation of the updated chunks, which is what callers below pass.
def blake2b256 (msg : List Nat) : List Nat :=
  let h := blakeGo (msg.length + 1) blakeH0 0 msg
  ((h.take 4).map wordBytesLE).flatten

-- ---------------------------------------------------------------------------
-- JSON values and the deterministic serializer (serde_json::to_string)
-- ---------------------------------------------------------------------------

-- Models `serde_json::Value`.  Numbers are restricted to integers (no claim
-- depends on number formatting); the nested element and field sequences are
-- spelled as mutual inductives so that the serializer below is structurally
-- recursive.
mutual

inductive JValue where
  | null
  | bool (b : Bool)
  | num (n : Int)
  | str (s : String)
  | arr (xs : JValueList)
  | obj (fields : JFieldList)

inductive JValueList where
  | nil
  | cons (hd : JValue) (tl : JValueList)

inductive JFieldList where
  | nil
  | cons (key : String) (val : JValue) (tl : JFieldList)

end

def toFieldList : JFieldList → List (String × JValue)
  | .nil => []
  | .cons k v tl => (k, v) :: toFieldList tl

-- serde_json string escaping: quote, backslash, and control characters.
def escChar (c : Char) : String :=
  if c = '"' then "\\\""
  else if c = '\\' then "\\\\"
  else if c.toNat = 8 then "\\b"
  else if c.toNat = 9 then "\\t"
  else if c.toNat = 10 then "\\n"
  else if c.toNat = 12 then "\\f"
  else if c.toNat = 13 then "\\r"
  else if c.toNat < 32 then "\\u00" ++ String.mk [hexDigit (c.toNat / 16), hexDigit (c.toNat % 16)]
  else String.singleton c

def jsonStr (s : String) : String := "\"" ++ String.join (s.data.map escChar) ++ "\""

-- Compact serialization: `serde_json::to_string` emits no spaces, separates
-- sequence items with `,` and keys from values with `:`.
mutual

def jsonSerialize : JValue → String
  | .null => "null"
  | .bool true => "true"
  | .bool false => "false"
  | .num n => toString n
  | .str s => jsonStr s
  | .arr xs => "[" ++ serArr xs ++ "]"
  | .obj fs => "\x7b" ++ serObj fs ++ "\x7d"

def serArr : JValueList → String
  | .nil => ""
  | .cons x .nil => jsonSerialize x
  | .cons x tl => jsonSerialize x ++ "," ++ serArr tl

def serObj : JFieldList → String
  | .nil => ""
  | .cons k v .nil => jsonStr k ++ ":" ++ jsonSerialize v
  | .cons k v tl => jsonStr k ++ ":" ++ jsonSerialize v ++ "," ++ serObj tl

end

-- ---------------------------------------------------------------------------
-- Credential data model (src/credential.rs)
-- ---------------------------------------------------------------------------

structure Claim where
  ctype_hash : String
  contents : JValue
  owner : String

structure ClaimerSignature where
  signature : String
  key_id : String

structure Credential where
  claim : Claim
  claim_hashes : List String
  claim_nonce_map : List (String × String)
  claimer_signature : ClaimerSignature
  root_hash : String

-- ---------------------------------------------------------------------------
-- check_claim_contents
-- ---------------------------------------------------------------------------

-- The ownership statement, e.g. a serialized one-entry object mapping the
-- literal key `@id` to the owner string.
def owner_part (c : Claim) : String :=
  jsonSerialize (.obj (.cons "@id" (.str c.owner) .nil))

-- One statement per top-level contents entry, keyed
-- `kilt:ctype:<ctypeHash>#<key>`.
def content_part (c : Claim) (kv : String × JValue) : String :=
  jsonSerialize (.obj (.cons ("kilt:ctype:" ++ c.ctype_hash ++ "#" ++ kv.1) kv.2 .nil))

-- The `normalized_parts` vector of `check_claim_contents`; `none` when
-- `contents.as_object()` fails.  (`serde_json::to_string` cannot fail on a
-- `Value`, so the serialization `?`s never fire.)
def normalized_parts (c : Claim) : Option (List String) :=
  match c.contents with
  | .obj fields => some (owner_part c :: (toFieldList fields).map (content_part c))
  | _ => none

def stmt_hash (p : String) : String := hex_encode (blake2b256 (utf8Bytes p))

-- Salted disclosure hash: digest of the nonce bytes followed by the bytes of
-- the hex hash string (nonce first, as in the two `update` calls).
def salted_hash (nonce h : String) : String :=
  hex_encode (blake2b256 (utf8Bytes nonce ++ utf8Bytes h))

-- The `try_for_each` loop over the statement hashes.
def checkHashLoop (nm : List (String × String)) (chs : List String) :
    List String → Except Error Unit
  | [] => .ok ()
  | h :: rest =>
    match lookupStr nm h with
    | none => .error .invalidClaimContents
    | some nonce =>
      if salted_hash nonce h ∈ chs then checkHashLoop nm chs rest
      else .error .invalidClaimContents

-- Models `Credential::check_claim_contents`.
def check_claim_contents (cred : Credential) : Except Error Unit :=
  match normalized_parts cred.claim with
  | none => .error .invalidClaimContents
  | some parts => checkHashLoop cred.claim_nonce_map cred.claim_hashes (parts.map stmt_hash)

-- ---------------------------------------------------------------------------
-- check_root_hash
-- ---------------------------------------------------------------------------

-- Hex-decodes every entry of `claim_hashes` in order, stopping at the first
-- failure, exactly like the `for` loop of `check_root_hash`.
def decodeAll : List String → Except Error (List (List Nat))
  | [] => .ok []
  | h :: rest =>
    match hex_decode h with
    | .error e => .error e
    | .ok bs =>
      match decodeAll rest with
      | .error e => .error e
      | .ok bss => .ok (bs :: bss)

-- Models `Credential::check_root_hash`: one running digest fed all decoded
-- bytes in array order (streaming updates = digest of the concatenation).
def check_root_hash (cred : Credential) : Except Error Unit :=
  match decodeAll cred.claim_hashes with
  | .error e => .error e
  | .ok bss =>
    if hex_encode (blake2b256 bss.flatten) ≠ cred.root_hash then .error .invalidRootHash
    else .ok ()

-- ---------------------------------------------------------------------------
-- DID helpers (src/utils.rs) and external interfaces
-- ---------------------------------------------------------------------------

-- Models `DidVerificationKey` from the generated runtime types.
inductive DidVerificationKey where
  | ed25519 (k : List Nat)
  | sr25519 (k : List Nat)
  | ecdsa (k : List Nat)

-- Models `DidPublicKey`.
inductive DidPublicKey where
  | publicVerificationKey (k : DidVerificationKey)
  | publicEncryptionKey (k : List Nat)

-- Models `DidPublicKeyDetails`.
structure DidPublicKeyDetails where
  key : DidPublicKey
  block_number : Nat

-- Models the DID document resolved from chain: `public_keys.0` iterated as
-- (key id, details) pairs; key ids are the raw 32 bytes of the `H256`.
structure DidDocument where
  public_keys : List (List Nat × DidPublicKeyDetails)

-- Models the on-chain attestation record; fields the code never reads are
-- dropped.
structure AttestationRecord where
  attester : List Nat
  revoked : Bool

-- Everything the repository consumes from outside its own sources:
--   * `ss58_decode` models `AccountId32::from_ss58check` (`none` on any
--     decode failure),
--   * `ss58_encode` models
--     `to_ss58check_with_version(Ss58AddressFormat::custom(38))`,
--   * `did_storage` and `attestations_storage` model the two subxt storage
--     queries keyed by account id and root hash (`Except.error` is a
--     transport failure, `.ok none` means no record),
--   * `sr25519_verify` models `RuntimePublic::verify` on raw public key,
--     message, and signature bytes.
structure Externals where
  ss58_decode : String → Option (List Nat)
  ss58_encode : List Nat → String
  did_storage : List Nat → Except Unit (Option DidDocument)
  attestations_storage : List Nat → Except Unit (Option AttestationRecord)
  sr25519_verify : List Nat → List Nat → List Nat → Bool

-- Models `utils::get_did_parts`: the DID must split on `:` into exactly
-- three segments.
def get_did_parts (did : String) : Except Error (List (List Char)) :=
  let ps := splitChar ':' did.data
  if ps.length ≠ 3 then .error .invalidDid else .ok ps

-- Models `utils::get_did_account_id`: the third segment up to an optional
-- `#` is SS58-decoded; any decode failure becomes `InvalidDid`.
def get_did_account_id (ext : Externals) (did : String) : Except Error (List Nat) :=
  match get_did_parts did with
  | .error e => .error e
  | .ok ps =>
    match ext.ss58_decode (String.mk ((splitChar '#' (ps.getD 2 [])).headD [])) with
    | none => .error .invalidDid
    | some a => .ok a

-- Models `utils::get_did_key_id`: the fragment after `#` has its first two
-- bytes removed (the `[2..]` slice, intended for `0x`), is raw hex-decoded
-- (`hex::decode`, whose error becomes `InvalidHex` via `?`), and must give
-- exactly 32 bytes.
def get_did_key_id (did : String) : Except Error (List Nat) :=
  match get_did_parts did with
  | .error e => .error e
  | .ok ps =>
    let frag := splitChar '#' (ps.getD 2 [])
    if frag.length ≠ 2 then .error .invalidDid
    else
      match hexDecodeBytes ((utf8Bytes (String.mk (frag.getD 1 []))).drop 2) with
      | .error e => .error (.invalidHex e)
      | .ok bs => if bs.length = 32 then .ok bs else .error .invalidDid

-- ---------------------------------------------------------------------------
-- check_signature
-- ---------------------------------------------------------------------------

-- Models `Credential::check_signature`.
def check_signature (cred : Credential) (ext : Externals) : Except Error Unit :=
  match get_did_account_id ext cred.claim.owner with
  | .error e => .error e
  | .ok owner =>
    match ext.did_storage owner with
    | .error _ => .error .connectionError
    | .ok none => .error .didNotFound
    | .ok (some did_doc) =>
      match get_did_key_id cred.claimer_signature.key_id with
      | .error e => .error e
      | .ok did_key_id =>
        match did_doc.public_keys.find? (fun p => decide (p.1 = did_key_id)) with
        | none => .error .invalidDid
        | some entry =>
          match entry.2.key with
          | .publicVerificationKey (.sr25519 k) =>
            match hex_decode cred.claimer_signature.signature with
            | .error e => .error e
            | .ok sigBytes =>
              if sigBytes.length = 64 then
                match hex_decode cred.root_hash with
                | .error e => .error e
                | .ok msg =>
                  if ext.sr25519_verify k msg sigBytes then .ok ()
                  else .error .invalidSignature
              else .error (.invalidHex .oddLength)
          | _ => .error .invalidDid

-- ---------------------------------------------------------------------------
-- check_attestation
-- ---------------------------------------------------------------------------

-- Models `Credential::check_attestation`.  The decoded root hash must be
-- exactly 32 bytes (the `try_into` to `H256`, whose failure is mapped to
-- `InvalidHex(OddLength)` by the code).
def check_attestation (cred : Credential) (ext : Externals)
    (allowed_issuers : List String) : Except Error Unit :=
  match hex_decode cred.root_hash with
  | .error e => .error e
  | .ok hbytes =>
    if hbytes.length = 32 then
      match ext.attestations_storage hbytes with
      | .error _ => .error .connectionError
      | .ok none => .error .attestationNotFound
      | .ok (some attestation) =>
        if attestation.revoked then .error .attestationRevoked
        else
          if ("did:kilt:" ++ ext.ss58_encode attestation.attester) ∈ allowed_issuers then .ok ()
          else .error .invalidIssuer
    else .error (.invalidHex .oddLength)

-- ---------------------------------------------------------------------------
-- verify
-- ---------------------------------------------------------------------------

-- Models `Credential::verify`: the four checks run in order, each `?`
-- returning the first failure unchanged.
def verify (cred : Credential) (ext : Externals)
    (allowed_issuers : List String) : Except Error Unit :=
  match check_claim_contents cred with
  | .error e => .error e
  | .ok _ =>
    match check_root_hash cred with
    | .error e => .error e
    | .ok _ =>
      match check_signature cred ext with
      | .error e => .error e
      | .ok _ => check_attestation cred ext allowed_issuers

-- ---------------------------------------------------------------------------
-- Concrete fixtures
-- ---------------------------------------------------------------------------

-- The regression credential from the repository test suite (EXAMPLE_CRED in
-- src/credential.rs); also the end-to-end fixture named by the spec.
def exampleCred : Credential :=
  { claim :=
      { ctype_hash := "0x3291bb126e33b4862d421bfaa1d2f272e6cdfc4f96658988fbcffea8914bd9ac"
        contents := .obj (.cons "Email" (.str "tino@kilt.io") .nil)
        owner := "did:kilt:4siDmerNEBREZJsFoLM95x6cxEho73bCWKEDAXrKdou4a3mH" }
    claim_hashes :=
      ["0x2192b61d3f3109920e8991952a3fad9b7158e4fcac96dcfb873d5e975ba057e4",
       "0x2ef47f014e20bb908595f71ff022a53d7d84b5370dfed18479d4eee0575483c9"]
    claim_nonce_map :=
      [("0x0e0d56f241309d5a06ddf94e01d97d946f9b004d4f847302f050e5accf429c83",
        "5f25a0d1-b68f-4e06-a003-26c391935540"),
       ("0x758777288cc6705af9fb1b65f00647da18f696458ccbc59c4de0d50873e2b19d",
        "c57e9c72-fa8a-4e4f-b60f-a20234317bda")]
    claimer_signature :=
      { signature := "0x6243baecdfa9c752161f501597bafbb0242db1174bb8362c18d6e51bdbbdf041997fb736a07dcf56cb023687c4cc044ffba39e0dfcf01b7caa00f0f8b4fbbd81"
        key_id := "did:kilt:4siDmerNEBREZJsFoLM95x6cxEho73bCWKEDAXrKdou4a3mH#0x78579576fa15684e5d868c9e123d62d471f1a95d8f9fc8032179d3735069784d" }
    root_hash := "0xf69ce26ca50b5d5f38cd32a99d031cd52fff42f17b9afb32895ffba260fb616a" }

def exampleParts : List String :=
  [owner_part exampleCred.claim,
   content_part exampleCred.claim ("Email", .str "tino@kilt.io")]

def exampleBss : List (List Nat) :=
  match decodeAll exampleCred.claim_hashes with
  | .ok b => b
  | .error _ => []

-- A credential with an empty contents object, for exercising the ownership
-- statement in isolation.
def w10claim : Claim :=
  { ctype_hash := "", contents := .obj .nil, owner := "did:kilt:owner-w10" }

def w10cred : Credential :=
  { claim := w10claim
    claim_hashes := [salted_hash "n0" (stmt_hash (owner_part w10claim))]
    claim_nonce_map := [(stmt_hash (owner_part w10claim), "n0")]
    claimer_signature := { signature := "", key_id := "" }
    root_hash := "" }

-- The credential obtained by exchanging entries i and j of claimHashes,
-- leaving everything else (in particular rootHash) unchanged.
def swapHashes (cred : Credential) (i j : Nat) : Credential :=
  { cred with claim_hashes := (cred.claim_hashes.set i (cred.claim_hashes.getD j "")).set j (cred.claim_hashes.getD i "") }

-- Two claim-hash entries with distinct string values whose decoded bytes
-- coincide (the second omits the optional front marker).
def credC5 : Credential :=
  { claim := { ctype_hash := "", contents := .obj .nil, owner := "" }
    claim_hashes := ["0x12", "12"]
    claim_nonce_map := []
    claimer_signature := { signature := "", key_id := "" }
    root_hash := hex_encode (blake2b256 [18, 18]) }

def wc5 : Credential :=
  { claim := { ctype_hash := "", contents := .obj .nil, owner := "" }
    claim_hashes := ["0x01", "0x02"]
    claim_nonce_map := []
    claimer_signature := { signature := "", key_id := "" }
    root_hash := hex_encode (blake2b256 [1, 2]) }

-- A credential whose contents are not an object, so canonicalization fails.
def cbad : Credential :=
  { claim := { ctype_hash := "", contents := .str "x", owner := "" }
    claim_hashes := []
    claim_nonce_map := []
    claimer_signature := { signature := "", key_id := "" }
    root_hash := "" }

-- External world in which nothing resolves.
def trivExt : Externals :=
  { ss58_decode := fun _ => none
    ss58_encode := fun _ => ""
    did_storage := fun _ => .ok none
    attestations_storage := fun _ => .ok none
    sr25519_verify := fun _ _ _ => false }

-- Fixtures for the attestation check: a revoked record resolves for every
-- hash.
def wc4 : Credential :=
  { claim := { ctype_hash := "", contents := .obj .nil, owner := "" }
    claim_hashes := []
    claim_nonce_map := []
    claimer_signature := { signature := "", key_id := "" }
    root_hash := hex_encode (List.replicate 32 0) }

def wext4 : Externals :=
  { ss58_decode := fun _ => none
    ss58_encode := fun _ => "issuer"
    did_storage := fun _ => .ok none
    attestations_storage := fun _ => .ok (some { attester := [7], revoked := true })
    sr25519_verify := fun _ _ _ => false }

-- Fixtures for the signature check: a document with one sr25519 key whose
-- id matches the credential key reference, and a verifier that accepts.
def wdoc6 : DidDocument :=
  { public_keys :=
      [(List.replicate 32 1,
        { key := .publicVerificationKey (.sr25519 (List.replicate 32 2))
          block_number := 0 })] }

def wext6 : Externals :=
  { ss58_decode := fun _ => some (List.replicate 32 9)
    ss58_encode := fun _ => ""
    did_storage := fun _ => .ok (some wdoc6)
    attestations_storage := fun _ => .ok none
    sr25519_verify := fun _ _ _ => true }

def wc6 : Credential :=
  { claim := { ctype_hash := "", contents := .obj .nil, owner := "did:kilt:addr" }
    claim_hashes := []
    claim_nonce_map := []
    claimer_signature :=
      { signature := hex_encode (List.replicate 64 5)
        key_id := "did:kilt:addr#" ++ hex_encode (List.replicate 32 1) }
    root_hash := hex_encode (List.replicate 32 0) }

-- ---------------------------------------------------------------------------
-- Helper lemmas: whitespace trimming
-- ---------------------------------------------------------------------------

lemma dropWhile_ws_append (w cs : List Char) (hw : ∀ c ∈ w, rustWhitespace c = true) :
    (w ++ cs).dropWhile rustWhitespace = cs.dropWhile rustWhitespace := by
  induction w with
  | nil => simp
  | cons a t ih =>
    have ha : rustWhitespace a = true := hw a (by simp)
    simp only [List.cons_append, List.dropWhile_cons, ha, if_true]
    exact ih (fun c hc => hw c (by simp [hc]))

lemma dropWhile_not_ws (cs : List Char) (h : ∀ c ∈ cs, rustWhitespace c = false) :
    cs.dropWhile rustWhitespace = cs := by
  cases cs with
  | nil => rfl
  | cons a t =>
    have ha : rustWhitespace a = false := h a (by simp)
    simp [List.dropWhile_cons, ha]

lemma trim_sandwich (w1 mid w2 : List Char)
    (hw1 : ∀ c ∈ w1, rustWhitespace c = true)
    (hw2 : ∀ c ∈ w2, rustWhitespace c = true)
    (hmid : ∀ c ∈ mid, rustWhitespace c = false) :
    trimChars (w1 ++ mid ++ w2) = mid := by
  unfold trimChars
  rw [List.append_assoc, dropWhile_ws_append _ _ hw1]
  cases mid with
  | nil =>
    simp only [List.nil_append]
    have hall : w2.dropWhile rustWhitespace = [] := by
      have := dropWhile_ws_append w2 [] hw2
      simpa using this
    rw [hall]
    simp
  | cons a t =>
    have ha : rustWhitespace a = false := hmid a (by simp)
    simp only [List.cons_append, List.dropWhile_cons, ha, if_false, Bool.false_eq_true]
    rw [show (a :: (t ++ w2)).reverse = (t ++ w2).reverse ++ [a] by simp]
    rw [List.reverse_append]
    rw [show w2.reverse ++ t.reverse ++ [a] = w2.reverse ++ (t.reverse ++ [a]) from
      List.append_assoc _ _ _]
    rw [dropWhile_ws_append _ _ (fun c hc => hw2 c (List.mem_reverse.mp hc))]
    rw [dropWhile_not_ws]
    · simp
    · intro c hc
      rcases List.mem_append.mp hc with h1 | h1
      · exact hmid c (by simp [List.mem_reverse.mp h1])
      · simp at h1
        subst h1
        exact ha

-- ---------------------------------------------------------------------------
-- Helper lemmas: hex digits and the encode/decode round trip
-- ---------------------------------------------------------------------------

lemma hexDigit_mem_of_lt : ∀ n, n < 16 → hexDigit n ∈ hexDigitChars := by decide

lemma hexDigitChars_not_ws : ∀ c ∈ hexDigitChars, rustWhitespace c = false := by decide

lemma hexDigitChars_ascii : ∀ c ∈ hexDigitChars, c.toNat < 128 := by decide

lemma hexDigitChars_ne_x : ∀ c ∈ hexDigitChars, ¬(c = 'x') := by decide

lemma hexVal_hexDigit : ∀ n, n < 16 → hexVal (hexDigit n).toNat = some n := by decide

lemma mem_hexCore_chars (bs : List Nat) (hb : ∀ b ∈ bs, b < 256) :
    ∀ c ∈ (bs.map byteHexChars).flatten, c ∈ hexDigitChars := by
  intro c hc
  rw [List.mem_flatten] at hc
  obtain ⟨l, hl, hcl⟩ := hc
  rw [List.mem_map] at hl
  obtain ⟨b, hbmem, rfl⟩ := hl
  have hblt := hb b hbmem
  simp only [byteHexChars, List.mem_cons, List.not_mem_nil, or_false] at hcl
  rcases hcl with rfl | rfl
  · exact hexDigit_mem_of_lt _ (by omega)
  · exact hexDigit_mem_of_lt _ (by omega)

lemma strip0x_of_hex (cs : List Char) (h : ∀ c ∈ cs, c ∈ hexDigitChars) :
    strip0x cs = cs := by
  rw [strip0x.eq_def]
  split
  · rename_i rest
    exact absurd (h 'x' (by simp)) (by decide)
  · rfl

lemma utf8_ascii (cs : List Char) (h : ∀ c ∈ cs, c.toNat < 128) :
    utf8Bytes (String.mk cs) = cs.map Char.toNat := by
  induction cs with
  | nil => rfl
  | cons a t ih =>
    have ha : a.toNat < 128 := h a (by simp)
    have ht := ih (fun c hc => h c (by simp [hc]))
    simp only [utf8Bytes, List.map_cons, List.flatten_cons] at *
    rw [ht, utf8Char, if_pos ha]
    rfl

lemma hexPairs_encode (bs : List Nat) (hb : ∀ b ∈ bs, b < 256) :
    ∀ i, hexPairs (((bs.map byteHexChars).flatten).map Char.toNat) i = .ok bs := by
  induction bs with
  | nil => intro i; rfl
  | cons b t ih =>
    intro i
    have hblt : b < 256 := hb b (by simp)
    have h1 : b / 16 < 16 := by omega
    have h2 : b % 16 < 16 := by omega
    simp only [List.map_cons, List.flatten_cons, byteHexChars, List.cons_append,
      List.nil_append]
    simp only [hexPairs, hexVal_hexDigit _ h1, hexVal_hexDigit _ h2,
      ih (fun c hc => hb c (by simp [hc])) (i + 2)]
    have : b / 16 * 16 + b % 16 = b := by omega
    rw [this]

lemma hexCore_length (l : List Nat) :
    ((l.map byteHexChars).flatten).length = 2 * l.length := by
  induction l
  case nil => rfl
  case cons x t ih =>
    simp [byteHexChars, ih]
    omega

lemma hexDecodeBytes_encode (bs : List Nat) (hb : ∀ b ∈ bs, b < 256) :
    hexDecodeBytes (((bs.map byteHexChars).flatten).map Char.toNat) = .ok bs := by
  unfold hexDecodeBytes
  rw [List.length_map, hexCore_length]
  rw [if_neg (by omega)]
  exact hexPairs_encode bs hb 0

-- Strings are equal when their character lists are; used to push `hex_decode`
-- through string concatenations.
lemma hex_decode_congr (s t : String) (h : s.data = t.data) : hex_decode s = hex_decode t := by
  rw [String.ext h]

lemma hexCore_data (bs : List Nat) : (hexCore bs).data = (bs.map byteHexChars).flatten := rfl

-- Decoding any whitespace-wrapped, optionally `0x`-marked rendering of the
-- lowercase hex of a byte sequence recovers exactly that sequence.
lemma hex_decode_wrapped (bs : List Nat) (w1 w2 : String) (pre : List Char)
    (hb : ∀ b ∈ bs, b < 256)
    (hw1 : ∀ c ∈ w1.data, rustWhitespace c = true)
    (hw2 : ∀ c ∈ w2.data, rustWhitespace c = true)
    (hpre : pre = [] ∨ pre = ['0', 'x']) :
    hex_decode (String.mk (w1.data ++ (pre ++ (hexCore bs).data) ++ w2.data)) = .ok bs := by
  have hcore : ∀ c ∈ (hexCore bs).data, c ∈ hexDigitChars := by
    rw [hexCore_data]
    exact mem_hexCore_chars bs hb
  have hmid : ∀ c ∈ pre ++ (hexCore bs).data, rustWhitespace c = false := by
    intro c hc
    rcases List.mem_append.mp hc with h1 | h1
    · rcases hpre with rfl | rfl
      · simp at h1
      · simp only [List.mem_cons, List.not_mem_nil, or_false] at h1
        rcases h1 with rfl | rfl <;> decide
    · exact hexDigitChars_not_ws c (hcore c h1)
  unfold hex_decode
  rw [show (String.mk (w1.data ++ (pre ++ (hexCore bs).data) ++ w2.data)).data =
    w1.data ++ (pre ++ (hexCore bs).data) ++ w2.data from rfl]
  rw [trim_sandwich _ _ _ hw1 hw2 hmid]
  have hstrip : strip0x (pre ++ (hexCore bs).data) = (hexCore bs).data := by
    rcases hpre with rfl | rfl
    · rw [List.nil_append]
      exact strip0x_of_hex _ hcore
    · rw [show ['0', 'x'] ++ (hexCore bs).data = '0' :: 'x' :: (hexCore bs).data from rfl]
      rw [strip0x]
      exact strip0x_of_hex _ hcore
  rw [hstrip]
  rw [utf8_ascii _ (fun c hc => hexDigitChars_ascii c (hcore c hc))]
  rw [hexCore_data, hexDecodeBytes_encode bs hb]

-- Every byte produced by the digest is below 256.
lemma wordBytesLE_lt (w : Nat) : ∀ b ∈ wordBytesLE w, b < 256 := by
  intro b hb
  simp only [wordBytesLE, List.mem_cons, List.not_mem_nil, or_false] at hb
  rcases hb with rfl | rfl | rfl | rfl | rfl | rfl | rfl | rfl <;> omega

lemma blake2b256_lt (msg : List Nat) : ∀ b ∈ blake2b256 msg, b < 256 := by
  intro b hb
  unfold blake2b256 at hb
  rw [List.mem_flatten] at hb
  obtain ⟨l, hl, hbl⟩ := hb
  rw [List.mem_map] at hl
  obtain ⟨w, _, rfl⟩ := hl
  exact wordBytesLE_lt w b hbl

-- Round trip for `hex_encode` itself, and injectivity on valid byte lists.
lemma hex_decode_hex_encode (bs : List Nat) (hb : ∀ b ∈ bs, b < 256) :
    hex_decode (hex_encode bs) = .ok bs := by
  have h := hex_decode_wrapped bs "" "" ['0', 'x'] hb (by simp) (by simp) (Or.inr rfl)
  have hdata : (hex_encode bs).data = "".data ++ (['0', 'x'] ++ (hexCore bs).data) ++ "".data := by
    simp [hex_encode, String.data_append]
  rw [hex_decode_congr _ _ hdata]
  exact h

lemma hex_encode_inj (b1 b2 : List Nat) (h1 : ∀ b ∈ b1, b < 256) (h2 : ∀ b ∈ b2, b < 256)
    (heq : hex_encode b1 = hex_encode b2) : b1 = b2 := by
  have e1 := hex_decode_hex_encode b1 h1
  have e2 := hex_decode_hex_encode b2 h2
  rw [heq, e2] at e1
  exact (Except.ok.injEq _ _).mp e1.symm

-- ---------------------------------------------------------------------------
-- Helper lemmas: the disclosure-checking loop
-- ---------------------------------------------------------------------------

lemma checkHashLoop_ok_iff (nm : List (String × String)) (chs : List String)
    (hs : List String) :
    checkHashLoop nm chs hs = .ok () ↔
      ∀ h ∈ hs, ∃ n, lookupStr nm h = some n ∧ salted_hash n h ∈ chs := by
  induction hs with
  | nil => simp [checkHashLoop]
  | cons h t ih =>
    cases hl : lookupStr nm h with
    | none =>
      have hred : checkHashLoop nm chs (h :: t) = .error .invalidClaimContents := by
        simp [checkHashLoop, hl]
      rw [hred]
      constructor
      · intro hc
        exact absurd hc (by simp)
      · intro hall
        obtain ⟨n, hn, _⟩ := hall h (by simp)
        rw [hl] at hn
        exact absurd hn (by simp)
    | some n =>
      by_cases hmem : salted_hash n h ∈ chs
      · have hred : checkHashLoop nm chs (h :: t) = checkHashLoop nm chs t := by
          simp [checkHashLoop, hl, hmem]
        rw [hred, ih]
        constructor
        · intro hall p hp
          rcases List.mem_cons.mp hp with rfl | hpt
          · exact ⟨n, hl, hmem⟩
          · exact hall p hpt
        · intro hall p hp
          exact hall p (by simp [hp])
      · have hred : checkHashLoop nm chs (h :: t) = .error .invalidClaimContents := by
          simp [checkHashLoop, hl, hmem]
        rw [hred]
        constructor
        · intro hc
          exact absurd hc (by simp)
        · intro hall
          obtain ⟨n2, hn2, hmem2⟩ := hall h (by simp)
          rw [hl] at hn2
          obtain rfl : n = n2 := by
            simpa using hn2
          exact absurd hmem2 hmem

lemma checkHashLoop_ok_or_err (nm : List (String × String)) (chs : List String)
    (hs : List String) :
    checkHashLoop nm chs hs = .ok () ∨
      checkHashLoop nm chs hs = .error .invalidClaimContents := by
  induction hs with
  | nil => exact Or.inl rfl
  | cons h t ih =>
    cases hl : lookupStr nm h with
    | none =>
      right
      simp [checkHashLoop, hl]
    | some n =>
      by_cases hmem : salted_hash n h ∈ chs
      · have hred : checkHashLoop nm chs (h :: t) = checkHashLoop nm chs t := by
          simp [checkHashLoop, hl, hmem]
        rw [hred]
        exact ih
      · right
        simp [checkHashLoop, hl, hmem]

-- ---------------------------------------------------------------------------
-- Helper lemmas: decodeAll
-- ---------------------------------------------------------------------------

lemma decodeAll_err_shape (l : List String) (e : Error) (h : decodeAll l = .error e) :
    ∃ he, e = .invalidHex he := by
  induction l with
  | nil => exact absurd h (by simp [decodeAll])
  | cons s t ih =>
    simp only [decodeAll] at h
    cases hd : hex_decode s with
    | error e2 =>
      rw [hd] at h
      obtain rfl : e2 = e := by
        simpa using h
      unfold hex_decode at hd
      cases hdb : hexDecodeBytes (utf8Bytes (String.mk (strip0x (trimChars s.data)))) with
      | error he =>
        rw [hdb] at hd
        exact ⟨he, by simpa using hd.symm⟩
      | ok bs =>
        rw [hdb] at hd
        exact absurd hd (by simp)
    | ok bs =>
      rw [hd] at h
      cases hrest : decodeAll t with
      | error e2 =>
        rw [hrest] at h
        obtain rfl : e2 = e := by
          simpa using h
        exact ih hrest
      | ok bss =>
        rw [hrest] at h
        exact absurd h (by simp)

lemma decodeAll_length (l : List String) (bs : List (List Nat))
    (h : decodeAll l = .ok bs) : bs.length = l.length := by
  induction l generalizing bs with
  | nil =>
    simp only [decodeAll] at h
    obtain rfl : ([] : List (List Nat)) = bs := by
      simpa using h
    rfl
  | cons s t ih =>
    simp only [decodeAll] at h
    cases hd : hex_decode s with
    | error e => rw [hd] at h; exact absurd h (by simp)
    | ok b =>
      rw [hd] at h
      cases hrest : decodeAll t with
      | error e => rw [hrest] at h; exact absurd h (by simp)
      | ok bss =>
        rw [hrest] at h
        obtain rfl : b :: bss = bs := by
          simpa using h
        simp [ih bss hrest]

lemma decodeAll_getD (l : List String) (bs : List (List Nat))
    (h : decodeAll l = .ok bs) :
    ∀ i, i < l.length → hex_decode (l.getD i "") = .ok (bs.getD i []) := by
  induction l generalizing bs with
  | nil => intro i hi; simp at hi
  | cons s t ih =>
    simp only [decodeAll] at h
    cases hd : hex_decode s with
    | error e => rw [hd] at h; exact absurd h (by simp)
    | ok b =>
      rw [hd] at h
      cases hrest : decodeAll t with
      | error e => rw [hrest] at h; exact absurd h (by simp)
      | ok bss =>
        rw [hrest] at h
        obtain rfl : b :: bss = bs := by
          simpa using h
        intro i hi
        cases i with
        | zero => simpa using hd
        | succ n =>
          simp only [List.getD_cons_succ]
          exact ih bss hrest n (by simpa using hi)

lemma decodeAll_set (l : List String) (bs : List (List Nat)) (x : String) (y : List Nat)
    (h : decodeAll l = .ok bs) (hx : hex_decode x = .ok y) :
    ∀ i, i < l.length → decodeAll (l.set i x) = .ok (bs.set i y) := by
  induction l generalizing bs with
  | nil => intro i hi; simp at hi
  | cons s t ih =>
    simp only [decodeAll] at h
    cases hd : hex_decode s with
    | error e => rw [hd] at h; exact absurd h (by simp)
    | ok b =>
      rw [hd] at h
      cases hrest : decodeAll t with
      | error e => rw [hrest] at h; exact absurd h (by simp)
      | ok bss =>
        rw [hrest] at h
        obtain rfl : b :: bss = bs := by
          simpa using h
        intro i hi
        cases i with
        | zero =>
          simp only [List.set_cons_zero]
          simp [decodeAll, hx, hrest]
        | succ n =>
          simp only [List.set_cons_succ]
          simp [decodeAll, hd, ih bss hrest n (by simpa using hi)]

-- ---------------------------------------------------------------------------
-- Claim theorems
-- ---------------------------------------------------------------------------

/-- Claim C1: for every credential, `check_claim_contents` succeeds iff every
canonical statement produced from the claim (the ownership statement plus one
statement per top-level contents entry, listed by `normalized_parts`) has a
nonce entry in `claimNonceMap` under the hex Blake2b-256 digest of the
statement, and the salted digest (nonce bytes followed by the bytes of the hex
hash string) is a member of `claimHashes`; any failure of the check is the
`InvalidClaimContents` error. -/
theorem check_claim_contents_spec (cred : Credential) :
    (∀ parts, normalized_parts cred.claim = some parts →
      ((check_claim_contents cred = .ok () ↔
          ∀ p ∈ parts, ∃ n, lookupStr cred.claim_nonce_map (stmt_hash p) = some n ∧
            salted_hash n (stmt_hash p) ∈ cred.claim_hashes)
        ∧ (check_claim_contents cred ≠ .ok () →
            check_claim_contents cred = .error .invalidClaimContents)))
    ∧ (normalized_parts cred.claim = none →
        check_claim_contents cred = .error .invalidClaimContents) := by
  constructor
  · intro parts hp
    have hred : check_claim_contents cred =
        checkHashLoop cred.claim_nonce_map cred.claim_hashes (parts.map stmt_hash) := by
      simp [check_claim_contents, hp]
    constructor
    · rw [hred, checkHashLoop_ok_iff]
      constructor
      · intro hall p hpmem
        exact hall (stmt_hash p) (List.mem_map.mpr ⟨p, hpmem, rfl⟩)
      · intro hall h hmem
        obtain ⟨p, hpmem, rfl⟩ := List.mem_map.mp hmem
        exact hall p hpmem
    · intro hne
      rw [hred] at hne ⊢
      rcases checkHashLoop_ok_or_err cred.claim_nonce_map cred.claim_hashes
        (parts.map stmt_hash) with hok | herr
      · exact absurd hok hne
      · exact herr
  · intro hnone
    simp [check_claim_contents, hnone]

/-- Witness for C1: the repository's own example credential passes
`check_claim_contents`, via the right-to-left direction of the theorem applied
to its two canonical statements. -/
theorem check_claim_contents_spec_witness :
    check_claim_contents exampleCred = .ok () :=
  ((check_claim_contents_spec exampleCred).1 exampleParts rfl).1.mpr (by
    intro p hp
    rcases List.mem_cons.mp hp with rfl | hp2
    · exact ⟨"5f25a0d1-b68f-4e06-a003-26c391935540", by decide, by decide⟩
    · rcases List.mem_cons.mp hp2 with rfl | hp3
      · exact ⟨"c57e9c72-fa8a-4e4f-b60f-a20234317bda", by decide, by decide⟩
      · exact absurd hp3 (by simp))

/-- Claim C10: a credential whose claim contents is the empty object is not
accepted vacuously: `check_claim_contents` still emits and checks the
ownership statement, so it succeeds iff that statement's digest has a nonce
entry and the salted digest is a member of `claimHashes`. -/
theorem empty_contents_ownership_spec (cred : Credential)
    (h : cred.claim.contents = .obj .nil) :
    (check_claim_contents cred = .ok () ↔
      ∃ n, lookupStr cred.claim_nonce_map (stmt_hash (owner_part cred.claim)) = some n ∧
        salted_hash n (stmt_hash (owner_part cred.claim)) ∈ cred.claim_hashes)
    ∧ (check_claim_contents cred ≠ .ok () →
        check_claim_contents cred = .error .invalidClaimContents) := by
  have hp : normalized_parts cred.claim = some [owner_part cred.claim] := by
    simp [normalized_parts, h, toFieldList]
  have hred : check_claim_contents cred =
      checkHashLoop cred.claim_nonce_map cred.claim_hashes [stmt_hash (owner_part cred.claim)] := by
    simp [check_claim_contents, hp]
  constructor
  · rw [hred, checkHashLoop_ok_iff]
    simp
  · intro hne
    rw [hred] at hne ⊢
    rcases checkHashLoop_ok_or_err cred.claim_nonce_map cred.claim_hashes
      [stmt_hash (owner_part cred.claim)] with hok | herr
    · exact absurd hok hne
    · exact herr

/-- Witness for C10: a concrete credential with empty contents whose nonce
map and hash list bind exactly the ownership statement is accepted. -/
theorem empty_contents_ownership_spec_witness :
    check_claim_contents w10cred = .ok () :=
  (empty_contents_ownership_spec w10cred rfl).1.mpr ⟨"n0", by decide, by decide⟩

/-- Claim C2: `check_root_hash` succeeds iff hex-encoding the Blake2b-256
digest of the concatenation, in array order, of the hex-decoded bytes of the
`claimHashes` entries equals `rootHash` exactly; a mismatch yields
`InvalidRootHash`, and a hex-decoding failure of any entry yields that hex
error instead. -/
theorem check_root_hash_spec (cred : Credential) :
    (∀ bss, decodeAll cred.claim_hashes = .ok bss →
      ((check_root_hash cred = .ok () ↔
          hex_encode (blake2b256 bss.flatten) = cred.root_hash)
        ∧ (hex_encode (blake2b256 bss.flatten) ≠ cred.root_hash →
            check_root_hash cred = .error .invalidRootHash)))
    ∧ (∀ e, decodeAll cred.claim_hashes = .error e →
        check_root_hash cred = .error e ∧ ∃ he, e = .invalidHex he) := by
  constructor
  · intro bss hd
    by_cases heq : hex_encode (blake2b256 bss.flatten) = cred.root_hash
    · have hok : check_root_hash cred = .ok () := by
        simp [check_root_hash, hd, heq]
      exact ⟨by simp [hok, heq], fun hne => absurd heq hne⟩
    · have herr : check_root_hash cred = .error .invalidRootHash := by
        simp [check_root_hash, hd, heq]
      refine ⟨⟨fun hc => absurd hc (by simp [herr]), fun hc => absurd hc heq⟩, fun _ => herr⟩
  · intro e he
    exact ⟨by simp [check_root_hash, he], decodeAll_err_shape _ _ he⟩

/-- Witness for C2: the example credential's root hash matches the digest of
its concatenated decoded claim hashes, so the check passes. -/
theorem check_root_hash_spec_witness :
    check_root_hash exampleCred = .ok () :=
  ((check_root_hash_spec exampleCred).1 exampleBss (by decide)).1.mpr (by decide)

/-- Claim C5 counterexample: a credential passing `check_root_hash` whose two
claim-hash entries have distinct string values, yet swapping them leaves the
check passing, because the entries decode to the same bytes (one carries the
optional `0x` marker, the other does not), so the digested concatenation is
unchanged.  This refutes the claim that swapping any two distinct-valued
entries makes `check_root_hash` fail. -/
theorem root_hash_swap_cex :
    check_root_hash credC5 = .ok ()
    ∧ credC5.claim_hashes.getD 0 "" ≠ credC5.claim_hashes.getD 1 ""
    ∧ (swapHashes credC5 0 1).claim_hashes = ["12", "0x12"]
    ∧ (swapHashes credC5 0 1).root_hash = credC5.root_hash
    ∧ check_root_hash (swapHashes credC5 0 1) = .ok () := by
  refine ⟨by decide, by decide, by decide, rfl, by decide⟩

/-- Claim C5 amended: for a credential passing `check_root_hash`, swapping
two entries of `claimHashes` (rootHash unchanged) makes the check fail
whenever the Blake2b-256 digest of the reordered concatenation of decoded
bytes differs from the digest of the original concatenation; entries that
decode to identical bytes (for instance the same hex with and without the
`0x` marker) leave the check passing. -/
lemma check_root_hash_err_red (cred : Credential) (bss : List (List Nat))
    (hd : decodeAll cred.claim_hashes = .ok bss)
    (hne : hex_encode (blake2b256 bss.flatten) ≠ cred.root_hash) :
    check_root_hash cred = .error .invalidRootHash := by
  simp [check_root_hash, hd, hne]

theorem root_hash_swap_amended (cred : Credential) (i j : Nat) (bss : List (List Nat))
    (hi : i < cred.claim_hashes.length) (hj : j < cred.claim_hashes.length)
    (hdec : decodeAll cred.claim_hashes = .ok bss)
    (hok : check_root_hash cred = .ok ())
    (hdig : blake2b256 (((bss.set i (bss.getD j [])).set j (bss.getD i [])).flatten) ≠
      blake2b256 bss.flatten) :
    check_root_hash (swapHashes cred i j) = .error .invalidRootHash := by
  have hroot : hex_encode (blake2b256 bss.flatten) = cred.root_hash := by
    by_contra hne
    have herr : check_root_hash cred = .error .invalidRootHash := by
      simp [check_root_hash, hdec, hne]
    rw [herr] at hok
    exact absurd hok (by simp)
  have h1 : hex_decode (cred.claim_hashes.getD j "") = .ok (bss.getD j []) :=
    decodeAll_getD _ _ hdec j hj
  have h2 : hex_decode (cred.claim_hashes.getD i "") = .ok (bss.getD i []) :=
    decodeAll_getD _ _ hdec i hi
  have hd1 : decodeAll (cred.claim_hashes.set i (cred.claim_hashes.getD j "")) =
      .ok (bss.set i (bss.getD j [])) :=
    decodeAll_set _ _ _ _ hdec h1 i hi
  have hd2 : decodeAll ((cred.claim_hashes.set i (cred.claim_hashes.getD j "")).set j
        (cred.claim_hashes.getD i "")) =
      .ok ((bss.set i (bss.getD j [])).set j (bss.getD i [])) :=
    decodeAll_set _ _ _ _ hd1 h2 j (by simpa using hj)
  have hne2 : hex_encode
      (blake2b256 (((bss.set i (bss.getD j [])).set j (bss.getD i [])).flatten)) ≠
      cred.root_hash := by
    intro heq
    rw [← hroot] at heq
    exact hdig (hex_encode_inj _ _ (blake2b256_lt _) (blake2b256_lt _) heq)
  exact check_root_hash_err_red (swapHashes cred i j) _ hd2 hne2

/-- Witness for the amended C5: swapping two entries that decode to distinct
bytes, with distinct digests of the concatenations, turns a passing check
into `InvalidRootHash`. -/
theorem root_hash_swap_amended_witness :
    check_root_hash (swapHashes wc5 0 1) = .error .invalidRootHash :=
  root_hash_swap_amended wc5 0 1 [[1], [2]] (by decide) (by decide) (by decide) (by decide)
    (by decide)

/-- Claim C3: `verify` runs the four checks in order
(claim contents, root hash, signature, attestation), succeeds iff all four
succeed, halts at the first failing check and returns its error unchanged; a
failure of an earlier check makes the result independent of everything a
later check would consult (the whole external world for the two offline
checks, the attestation storage and allow-list once the signature check
fails). -/
theorem verify_pipeline_spec (cred : Credential) (ext : Externals) (allowed : List String) :
    (verify cred ext allowed = .ok () ↔
      (check_claim_contents cred = .ok () ∧ check_root_hash cred = .ok () ∧
        check_signature cred ext = .ok () ∧ check_attestation cred ext allowed = .ok ()))
    ∧ (∀ e, check_claim_contents cred = .error e →
        ∀ ext2 allowed2, verify cred ext2 allowed2 = .error e)
    ∧ (∀ e, check_claim_contents cred = .ok () → check_root_hash cred = .error e →
        ∀ ext2 allowed2, verify cred ext2 allowed2 = .error e)
    ∧ (∀ e, check_claim_contents cred = .ok () → check_root_hash cred = .ok () →
        check_signature cred ext = .error e →
        ∀ att2 allowed2,
          verify cred { ext with attestations_storage := att2 } allowed2 = .error e)
    ∧ (∀ e, check_claim_contents cred = .ok () → check_root_hash cred = .ok () →
        check_signature cred ext = .ok () → check_attestation cred ext allowed = .error e →
        verify cred ext allowed = .error e) := by
  refine ⟨?_, ?_, ?_, ?_, ?_⟩
  · constructor
    · intro hv
      cases h1 : check_claim_contents cred with
      | error e => simp [verify, h1] at hv
      | ok u =>
        cases u
        cases h2 : check_root_hash cred with
        | error e => simp [verify, h1, h2] at hv
        | ok u =>
          cases u
          cases h3 : check_signature cred ext with
          | error e => simp [verify, h1, h2, h3] at hv
          | ok u =>
            cases u
            refine ⟨rfl, rfl, rfl, ?_⟩
            simpa [verify, h1, h2, h3] using hv
    · rintro ⟨h1, h2, h3, h4⟩
      simp [verify, h1, h2, h3, h4]
  · intro e h1 ext2 allowed2
    simp [verify, h1]
  · intro e h1 h2 ext2 allowed2
    simp [verify, h1, h2]
  · intro e h1 h2 h3 att2 allowed2
    have hsig : check_signature cred { ext with attestations_storage := att2 } =
        check_signature cred ext := rfl
    simp [verify, h1, h2, hsig, h3]
  · intro e h1 h2 h3 h4
    simp [verify, h1, h2, h3, h4]

/-- Witness for C3: a credential whose contents are not an object fails the
pipeline with `InvalidClaimContents` under any external world. -/
theorem verify_pipeline_spec_witness :
    verify cbad trivExt [] = .error .invalidClaimContents :=
  (verify_pipeline_spec cbad trivExt []).2.1 .invalidClaimContents (by decide) trivExt []

/-- Claim C4: when the root hash decodes to 32 bytes, `check_attestation`
fails with `AttestationNotFound` if no record resolves; with a resolved
record it fails with `AttestationRevoked` whenever the record is revoked,
regardless of the allow-list; otherwise it succeeds iff the attester account,
re-encoded as a `did:kilt` address string, is a member of the caller-supplied
allow-list, failing with `InvalidIssuer` when it is not. -/
theorem check_attestation_spec (cred : Credential) (ext : Externals)
    (allowed : List String) (bs : List Nat)
    (hdec : hex_decode cred.root_hash = .ok bs) (hlen : bs.length = 32) :
    (ext.attestations_storage bs = .ok none →
      check_attestation cred ext allowed = .error .attestationNotFound)
    ∧ (∀ att, ext.attestations_storage bs = .ok (some att) → att.revoked = true →
        check_attestation cred ext allowed = .error .attestationRevoked)
    ∧ (∀ att, ext.attestations_storage bs = .ok (some att) → att.revoked = false →
        ((check_attestation cred ext allowed = .ok () ↔
            ("did:kilt:" ++ ext.ss58_encode att.attester) ∈ allowed)
          ∧ (("did:kilt:" ++ ext.ss58_encode att.attester) ∉ allowed →
              check_attestation cred ext allowed = .error .invalidIssuer))) := by
  refine ⟨?_, ?_, ?_⟩
  · intro hnone
    simp [check_attestation, hdec, hlen, hnone]
  · intro att hfound hrev
    simp [check_attestation, hdec, hlen, hfound, hrev]
  · intro att hfound hrev
    by_cases hmem : ("did:kilt:" ++ ext.ss58_encode att.attester) ∈ allowed
    · have hok : check_attestation cred ext allowed = .ok () := by
        simp [check_attestation, hdec, hlen, hfound, hrev, hmem]
      exact ⟨by simp [hok, hmem], fun hc => absurd hmem hc⟩
    · have herr : check_attestation cred ext allowed = .error .invalidIssuer := by
        simp [check_attestation, hdec, hlen, hfound, hrev, hmem]
      refine ⟨⟨fun hc => absurd hc (by simp [herr]), fun hc => absurd hc hmem⟩, fun _ => herr⟩

/-- Witness for C4: with a resolvable but revoked record, the check reports
`AttestationRevoked` even though nothing about the issuer was consulted. -/
theorem check_attestation_spec_witness :
    check_attestation wc4 wext4 ["x"] = .error .attestationRevoked :=
  (check_attestation_spec wc4 wext4 ["x"] (List.replicate 32 0) (by decide)
      (by decide)).2.1 { attester := [7], revoked := true } rfl rfl

/-- Claim C6: once the owner account resolves, `check_signature` fails with
`DidNotFound` when no identity document exists; with a document and a parsed
key reference it fails with `InvalidDid` when no key has the referenced id,
or when the matching key is not an sr25519 public verification key; with an
sr25519 key and well-formed hex signature (64 bytes) and message, it succeeds
iff the signature verifies over the decoded root hash, failing with
`InvalidSignature` otherwise. -/
theorem check_signature_spec (cred : Credential) (ext : Externals) (acct : List Nat)
    (hacct : get_did_account_id ext cred.claim.owner = .ok acct) :
    (ext.did_storage acct = .ok none → check_signature cred ext = .error .didNotFound)
    ∧ (∀ doc kid, ext.did_storage acct = .ok (some doc) →
        get_did_key_id cred.claimer_signature.key_id = .ok kid →
        ((doc.public_keys.find? (fun p => decide (p.1 = kid)) = none →
            check_signature cred ext = .error .invalidDid)
          ∧ (∀ entry, doc.public_keys.find? (fun p => decide (p.1 = kid)) = some entry →
              ((∀ k, entry.2.key ≠ .publicVerificationKey (.sr25519 k)) →
                  check_signature cred ext = .error .invalidDid)
              ∧ (∀ k sig msg, entry.2.key = .publicVerificationKey (.sr25519 k) →
                  hex_decode cred.claimer_signature.signature = .ok sig →
                  sig.length = 64 →
                  hex_decode cred.root_hash = .ok msg →
                  ((check_signature cred ext = .ok () ↔
                      ext.sr25519_verify k msg sig = true)
                    ∧ (ext.sr25519_verify k msg sig = false →
                        check_signature cred ext = .error .invalidSignature)))))) := by
  refine ⟨?_, ?_⟩
  · intro hnone
    simp [check_signature, hacct, hnone]
  · intro doc kid hdoc hkid
    refine ⟨?_, ?_⟩
    · intro hfind
      simp [check_signature, hacct, hdoc, hkid, hfind]
    · intro entry hfind
      refine ⟨?_, ?_⟩
      · intro hnk
        cases hkey : entry.2.key with
        | publicVerificationKey vk =>
          cases vk with
          | ed25519 k => simp [check_signature, hacct, hdoc, hkid, hfind, hkey]
          | sr25519 k => exact absurd hkey (hnk k)
          | ecdsa k => simp [check_signature, hacct, hdoc, hkid, hfind, hkey]
        | publicEncryptionKey k =>
          simp [check_signature, hacct, hdoc, hkid, hfind, hkey]
      · intro k sig msg hkey hsig hlen hmsg
        cases hv : ext.sr25519_verify k msg sig with
        | true =>
          have hok : check_signature cred ext = .ok () := by
            simp [check_signature, hacct, hdoc, hkid, hfind, hkey, hsig, hlen, hmsg, hv]
          exact ⟨by simp [hok], fun hfalse => absurd hfalse (by simp)⟩
        | false =>
          have herr : check_signature cred ext = .error .invalidSignature := by
            simp [check_signature, hacct, hdoc, hkid, hfind, hkey, hsig, hlen, hmsg, hv]
          exact ⟨by simp [herr], fun _ => herr⟩

/-- Witness for C6: a document holding the referenced sr25519 key and an
accepting verifier make the signature check succeed. -/
theorem check_signature_spec_witness :
    check_signature wc6 wext6 = .ok () := by
  have h := check_signature_spec wc6 wext6 (List.replicate 32 9) (by decide)
  have h2 := h.2 wdoc6 (List.replicate 32 1) rfl (by decide)
  have h3 := h2.2 (List.replicate 32 1,
    { key := .publicVerificationKey (.sr25519 (List.replicate 32 2)), block_number := 0 }) rfl
  have h4 := h3.2 (List.replicate 32 2) (List.replicate 64 5) (List.replicate 32 0) rfl
    (by decide) (by decide) (by decide)
  exact h4.1.mpr rfl

/-- Claim C7: encoding then decoding returns the original bytes; the encoder
always puts `0x` in front; and the decoder accepts the hex body with or
without the `0x` marker and with arbitrary leading or trailing whitespace,
returning the same bytes in every combination. -/
theorem hex_round_trip_spec (bs : List Nat) (w1 w2 : String)
    (hb : ∀ b ∈ bs, b < 256)
    (hw1 : ∀ c ∈ w1.data, rustWhitespace c = true)
    (hw2 : ∀ c ∈ w2.data, rustWhitespace c = true) :
    hex_decode (hex_encode bs) = .ok bs
    ∧ (hex_encode bs).data.take 2 = ['0', 'x']
    ∧ hex_decode (w1 ++ hexCore bs ++ w2) = .ok bs
    ∧ hex_decode (w1 ++ "0x" ++ hexCore bs ++ w2) = .ok bs := by
  refine ⟨hex_decode_hex_encode bs hb, rfl, ?_, ?_⟩
  · have h := hex_decode_wrapped bs w1 w2 [] hb hw1 hw2 (Or.inl rfl)
    have hdata : (w1 ++ hexCore bs ++ w2).data =
        w1.data ++ ([] ++ (hexCore bs).data) ++ w2.data := by
      simp [String.data_append]
    rw [hex_decode_congr (w1 ++ hexCore bs ++ w2)
      (String.mk (w1.data ++ ([] ++ (hexCore bs).data) ++ w2.data)) hdata]
    exact h
  · have h := hex_decode_wrapped bs w1 w2 ['0', 'x'] hb hw1 hw2 (Or.inr rfl)
    have h0x : ("0x" : String).data = ['0', 'x'] := rfl
    have hdata : (w1 ++ "0x" ++ hexCore bs ++ w2).data =
        w1.data ++ (['0', 'x'] ++ (hexCore bs).data) ++ w2.data := by
      simp [String.data_append, h0x]
    rw [hex_decode_congr (w1 ++ "0x" ++ hexCore bs ++ w2)
      (String.mk (w1.data ++ (['0', 'x'] ++ (hexCore bs).data) ++ w2.data)) hdata]
    exact h

/-- Witness for C7: a concrete round trip of the bytes 0x12 0x34 through all
four prefix and whitespace combinations. -/
theorem hex_round_trip_spec_witness :
    hex_decode (hex_encode [18, 52]) = .ok [18, 52]
    ∧ (hex_encode [18, 52]).data.take 2 = ['0', 'x']
    ∧ hex_decode (" " ++ hexCore [18, 52] ++ "  ") = .ok [18, 52]
    ∧ hex_decode (" " ++ "0x" ++ hexCore [18, 52] ++ "  ") = .ok [18, 52] :=
  hex_round_trip_spec [18, 52] " " "  " (by decide) (by decide) (by decide)

/-- Claim C8 counterexample: an uppercase `0X` marker is not stripped, so the
input fails with `InvalidHexCharacter` for the byte of `X` at index 1 instead
of decoding to the same bytes as its lowercase or unmarked variants. -/
theorem hex_decode_upper_cex :
    hex_decode "0X12" = .error (.invalidHex (.invalidChar 88 1))
    ∧ hex_decode "0x12" = .ok [18]
    ∧ hex_decode "12" = .ok [18] := by decide

/-- Claim C8 amended: the decoder strips the `0x` marker case-sensitively;
for every byte sequence, the lowercase-marked and unmarked renderings decode
to the same bytes, while the uppercase-marked rendering always fails with
`InvalidHexCharacter` for `X` (byte 88) at index 1. -/
theorem hex_decode_upper_amended (bs : List Nat) (hb : ∀ b ∈ bs, b < 256) :
    hex_decode (String.mk ('0' :: 'X' :: (hexCore bs).data)) =
      .error (.invalidHex (.invalidChar 88 1))
    ∧ hex_decode (String.mk ('0' :: 'x' :: (hexCore bs).data)) = .ok bs
    ∧ hex_decode (hexCore bs) = .ok bs := by
  have hcore : ∀ c ∈ (hexCore bs).data, c ∈ hexDigitChars := by
    rw [hexCore_data]
    exact mem_hexCore_chars bs hb
  refine ⟨?_, ?_, ?_⟩
  · unfold hex_decode
    have hshow : (String.mk ('0' :: 'X' :: (hexCore bs).data)).data =
        '0' :: 'X' :: (hexCore bs).data := rfl
    rw [hshow]
    have htrim : trimChars ('0' :: 'X' :: (hexCore bs).data) =
        '0' :: 'X' :: (hexCore bs).data := by
      have hnws : ∀ c ∈ '0' :: 'X' :: (hexCore bs).data, rustWhitespace c = false := by
        intro c hc
        rcases List.mem_cons.mp hc with rfl | hc2
        · decide
        · rcases List.mem_cons.mp hc2 with rfl | hc3
          · decide
          · exact hexDigitChars_not_ws c (hcore c hc3)
      have := trim_sandwich [] ('0' :: 'X' :: (hexCore bs).data) [] (by simp) (by simp) hnws
      simpa using this
    rw [htrim]
    have hstrip : strip0x ('0' :: 'X' :: (hexCore bs).data) =
        '0' :: 'X' :: (hexCore bs).data := rfl
    rw [hstrip]
    have hutf : utf8Bytes (String.mk ('0' :: 'X' :: (hexCore bs).data)) =
        ('0' :: 'X' :: (hexCore bs).data).map Char.toNat := by
      apply utf8_ascii
      intro c hc
      rcases List.mem_cons.mp hc with rfl | hc2
      · decide
      · rcases List.mem_cons.mp hc2 with rfl | hc3
        · decide
        · exact hexDigitChars_ascii c (hcore c hc3)
    rw [hutf]
    have hpair : hexPairs (48 :: 88 :: ((hexCore bs).data.map Char.toNat)) 0 =
        .error (.invalidChar 88 1) := by
      have h48 : hexVal 48 = some 0 := by decide
      have h88 : hexVal 88 = none := by decide
      simp [hexPairs, h48, h88]
    have hlen : (('0' :: 'X' :: (hexCore bs).data).map Char.toNat).length % 2 = 0 := by
      rw [List.length_map]
      simp only [List.length_cons, hexCore_data, hexCore_length]
      omega
    have hbytes : hexDecodeBytes (('0' :: 'X' :: (hexCore bs).data).map Char.toNat) =
        .error (.invalidChar 88 1) := by
      unfold hexDecodeBytes
      rw [if_neg (by omega)]
      rw [show ('0' :: 'X' :: (hexCore bs).data).map Char.toNat =
        48 :: 88 :: ((hexCore bs).data.map Char.toNat) from rfl]
      exact hpair
    rw [hbytes]
  · have h := hex_decode_wrapped bs "" "" ['0', 'x'] hb (by simp) (by simp) (Or.inr rfl)
    have hdata : (String.mk ('0' :: 'x' :: (hexCore bs).data)).data =
        ("" : String).data ++ (['0', 'x'] ++ (hexCore bs).data) ++ ("" : String).data := by
      show '0' :: 'x' :: (hexCore bs).data = [] ++ (['0', 'x'] ++ (hexCore bs).data) ++ []
      simp
    rw [hex_decode_congr (String.mk ('0' :: 'x' :: (hexCore bs).data))
      (String.mk (("" : String).data ++ (['0', 'x'] ++ (hexCore bs).data) ++ ("" : String).data))
      hdata]
    exact h
  · have h := hex_decode_wrapped bs "" "" [] hb (by simp) (by simp) (Or.inl rfl)
    have hdata : (hexCore bs).data =
        ("" : String).data ++ ([] ++ (hexCore bs).data) ++ ("" : String).data := by
      show (hexCore bs).data = [] ++ ([] ++ (hexCore bs).data) ++ []
      simp
    rw [hex_decode_congr (hexCore bs)
      (String.mk (("" : String).data ++ ([] ++ (hexCore bs).data) ++ ("" : String).data))
      hdata]
    exact h

/-- Witness for the amended C8: the bytes `[0x12]` rendered with `0X`, `0x`
and no marker behave as stated. -/
theorem hex_decode_upper_amended_witness :
    hex_decode (String.mk ('0' :: 'X' :: (hexCore [18]).data)) =
      .error (.invalidHex (.invalidChar 88 1))
    ∧ hex_decode (String.mk ('0' :: 'x' :: (hexCore [18]).data)) = .ok [18]
    ∧ hex_decode (hexCore [18]) = .ok [18] :=
  hex_decode_upper_amended [18] (by decide)

/-- Claim C9: the `Error` enum declared in src/errors.rs lacks the variants
`AttestationNotFound`, `AttestationRevoked` and `InvalidIssuer`, although
`check_attestation` in src/credential.rs constructs all three (the embedded
check below returns one of them on a concrete revoked record), so the crate
as given cannot compile; the remaining kinds of the claimed taxonomy are
declared. -/
theorem error_enum_missing_attestation_variants :
    errName .attestationNotFound ∉ errorsRsVariantNames
    ∧ errName .attestationRevoked ∉ errorsRsVariantNames
    ∧ errName .invalidIssuer ∉ errorsRsVariantNames
    ∧ errName .invalidClaimContents ∈ errorsRsVariantNames
    ∧ errName (.invalidHex .oddLength) ∈ errorsRsVariantNames
    ∧ errName .invalidRootHash ∈ errorsRsVariantNames
    ∧ errName .invalidDid ∈ errorsRsVariantNames
    ∧ errName .didNotFound ∈ errorsRsVariantNames
    ∧ errName .invalidSignature ∈ errorsRsVariantNames
    ∧ errName .connectionError ∈ errorsRsVariantNames
    ∧ check_attestation wc4 wext4 ["x"] = .error .attestationRevoked := by decide
